import Mathlib

/-!
Verification of the geometric / orchestration core of the `ndvi-gee` library
(`src/ndvi.ts`).  Coordinates are embedded as exact rationals; the JavaScript
array that `get_polygon_centroid` mutates in place is modelled by explicit
state passing (the function returns both its value and the final state of the
array).  `Math.round x` is `round x = ⌊x + 1/2⌋`, which matches JavaScript
round-half-toward-positive-infinity on finite inputs.
-/

/-- A longitude/latitude pair, `type Coord` of the source. -/
structure Coord where
  lng : ℚ
  lat : ℚ
deriving DecidableEq, Repr

/-- The closure step of `get_polygon_centroid`:
`if (first.lng != last.lng || first.lat != last.lat) pts.push(first)`.
It returns the state of the array after the (possible) in-place push. -/
def closeRing (pts : List Coord) : List Coord :=
  let first := pts.headD ⟨0, 0⟩
  let last := pts.getLastD ⟨0, 0⟩
  if first.lng ≠ last.lng ∨ first.lat ≠ last.lat then pts ++ [first] else pts

/-- The pair sequence traversed by the loop
`for (let i = 0, j = nPts - 1; i < nPts; j = i++)`:
element `i` is `(pts[i], pts[j])` where `j = i - 1 mod nPts`
(`j` starts at `nPts - 1`). -/
def ringPairs (pts : List Coord) : List (Coord × Coord) :=
  pts.zip (pts.getLastD ⟨0, 0⟩ :: pts.dropLast)

/-- The loop body of `get_polygon_centroid`: starting from
`area = 0, lng = 0, lat = 0`, accumulate for each pair `(p1, p2)`
`f = (p1.lat - first.lat)*(p2.lng - first.lng) - (p2.lat - first.lat)*(p1.lng - first.lng)`,
`area += f`, `lng += (p1.lng + p2.lng - 2*first.lng) * f`,
`lat += (p1.lat + p2.lat - 2*first.lat) * f`. -/
def centroidLoop (first : Coord) (pairs : List (Coord × Coord)) : ℚ × ℚ × ℚ :=
  pairs.foldl
    (fun acc pq =>
      let p1 := pq.1
      let p2 := pq.2
      let f := (p1.lat - first.lat) * (p2.lng - first.lng) -
        (p2.lat - first.lat) * (p1.lng - first.lng)
      (acc.1 + f,
       acc.2.1 + (p1.lng + p2.lng - 2 * first.lng) * f,
       acc.2.2 + (p1.lat + p2.lat - 2 * first.lat) * f))
    (0, 0, 0)

/-- The value returned by `get_polygon_centroid` (`src/ndvi.ts:233-256`):
after closure, run the loop, set `f = area * 3` and return
`{ lng: lng / f + first.lng, lat: lat / f + first.lat }`. -/
def get_polygon_centroid (pts : List Coord) : Coord :=
  let first := pts.headD ⟨0, 0⟩
  let acc := centroidLoop first (ringPairs (closeRing pts))
  let f := acc.1 * 3
  ⟨acc.2.1 / f + first.lng, acc.2.2 / f + first.lat⟩

/-- `get_polygon_centroid` together with the state of the caller's array after
the call: `pts.push(first)` mutates the argument in place, so the array the
caller holds afterwards is `closeRing pts`. -/
def get_polygon_centroid_mut (pts : List Coord) : Coord × List Coord :=
  (get_polygon_centroid pts, closeRing pts)

/-- The accumulated signed-area term (`area` at loop exit); the enclosed
shoelace area of the polygon is half its absolute value. -/
def shoelaceArea (pts : List Coord) : ℚ :=
  (centroidLoop (pts.headD ⟨0, 0⟩) (ringPairs (closeRing pts))).1

/-- The cross term of spec section 4.1 step 2:
`f = (p1.lat - first.lat)*(p2.lng - first.lng) - (p2.lat - first.lat)*(p1.lng - first.lng)`. -/
def crossTerm (first p1 p2 : Coord) : ℚ :=
  (p1.lat - first.lat) * (p2.lng - first.lng) -
    (p2.lat - first.lat) * (p1.lng - first.lng)

/-- Spec 4.1 step 1, worded from the spec: if first and last vertex differ
(by exact equality of both coordinates), append a copy of the first vertex
to a working copy of the point sequence. -/
def close_spec (pts : List Coord) : List Coord :=
  if pts.headD ⟨0, 0⟩ = pts.getLastD ⟨0, 0⟩ then pts else pts ++ [pts.headD ⟨0, 0⟩]

/-- The first-vertex-anchored shoelace centroid exactly as the spec words it
(section 4.1): the cross terms `f` run over the consecutive pairs
`(p1 = pts[i], p2 = pts[i-1 mod n])` of the closed ring, the sums
`area`, `lngSum`, `latSum` accumulate them, `denom = area * 3`, and the
result is `(lngSum/denom + first.lng, latSum/denom + first.lat)`. -/
def centroid_spec (pts : List Coord) : Coord :=
  let c := close_spec pts
  let n := c.length
  let first := c.headD ⟨0, 0⟩
  let area := ((List.range n).map fun i =>
    crossTerm first (c.getD i ⟨0, 0⟩) (c.getD ((i + n - 1) % n) ⟨0, 0⟩)).sum
  let lngSum := ((List.range n).map fun i =>
    ((c.getD i ⟨0, 0⟩).lng + (c.getD ((i + n - 1) % n) ⟨0, 0⟩).lng - 2 * first.lng) *
      crossTerm first (c.getD i ⟨0, 0⟩) (c.getD ((i + n - 1) % n) ⟨0, 0⟩)).sum
  let latSum := ((List.range n).map fun i =>
    ((c.getD i ⟨0, 0⟩).lat + (c.getD ((i + n - 1) % n) ⟨0, 0⟩).lat - 2 * first.lat) *
      crossTerm first (c.getD i ⟨0, 0⟩) (c.getD ((i + n - 1) % n) ⟨0, 0⟩)).sum
  let denom := area * 3
  ⟨lngSum / denom + first.lng, latSum / denom + first.lat⟩

/-! ## Bounds and dimensions (`runAnalysis`, `src/ndvi.ts:77-90`) -/

/-- `Math.max(...polygon.map(a => a.lng))`: maximum longitude over the
vertices (the polygon is nonempty in every use). -/
def maxLng (p : List Coord) : ℚ :=
  p.foldl (fun m c => max m c.lng) (p.headD ⟨0, 0⟩).lng

/-- `Math.min(...polygon.map(a => a.lng))`. -/
def minLng (p : List Coord) : ℚ :=
  p.foldl (fun m c => min m c.lng) (p.headD ⟨0, 0⟩).lng

/-- `Math.max(...polygon.map(a => a.lat))`. -/
def maxLat (p : List Coord) : ℚ :=
  p.foldl (fun m c => max m c.lat) (p.headD ⟨0, 0⟩).lat

/-- `Math.min(...polygon.map(a => a.lat))`. -/
def minLat (p : List Coord) : ℚ :=
  p.foldl (fun m c => min m c.lat) (p.headD ⟨0, 0⟩).lat

/-- `deltaLng = maxLng - minLng`. -/
def deltaLng (p : List Coord) : ℚ := maxLng p - minLng p

/-- `deltaLat = maxLat - minLat`. -/
def deltaLat (p : List Coord) : ℚ := maxLat p - minLat p

/-- `dimensionLng = Math.round(width)`. -/
def dimensionLng (width : ℚ) : ℤ := round width

/-- `dimensionLat = Math.round(width * deltaLat / deltaLng)`.  In the source
a degenerate polygon makes `deltaLng = 0` and the JavaScript division by zero
produces `Infinity`/`NaN`; over `ℚ` the Lean convention `x / 0 = 0` applies,
and theorems about this value always carry `deltaLng p ≠ 0`. -/
def dimensionLat (p : List Coord) (width : ℚ) : ℤ :=
  round (width * deltaLat p / deltaLng p)

/-- The output dimension pair `(dimensionLng, dimensionLat)`. -/
def outputDims (p : List Coord) (width : ℚ) : ℤ × ℤ :=
  (dimensionLng width, dimensionLat p width)

/-- `coord = polygon.map(a => [a.lng, a.lat])`: the coordinate ring handed to
`ee.Geometry.Polygon`, captured before any mutation of `polygon`. -/
def coordRing (p : List Coord) : List (ℚ × ℚ) :=
  p.map fun a => (a.lng, a.lat)

/-! ## Orchestration (`runAnalysis` and `ndviGen`) -/

/-- The three metadata properties read from the selected image:
`system:time_start`, `system:time_end`, `system:index`. -/
structure ImgMeta where
  time_start : ℤ
  time_end : ℤ
  index : String
deriving DecidableEq, Repr

/-- How `runAnalysis` can fail.  The source contains no typed geometry or
no-image error: its only failure is the JavaScript `TypeError` thrown when
`image.getInfo()` is dereferenced on the `null` produced by `.first()` on an
empty collection, modelled by `nullDeref`. -/
inductive RunError where
  | nullDeref
deriving DecidableEq, Repr

/-- The result object `ret` of `runAnalysis` (`src/ndvi.ts:198-210`). -/
structure RegionQueryResult where
  width : ℤ
  height : ℤ
  centroid : Coord
  bounds : List Coord
  time_start : ℤ
  time_end : ℤ
  index : String
  img_url : String
deriving DecidableEq, Repr

/-- The external Earth Engine collaborator, abstracted to the two observations
`runAnalysis` depends on: the least-cloudy image of the date-filtered
collection (`l8.filterDate(dateStart, dateEnd).sort('CLOUD_COVER').first()`,
`none` when the collection is empty) and the thumbnail URL generator. -/
structure EEService where
  firstImage : ℤ → ℤ → Option ImgMeta
  thumbUrl : ℤ × ℤ → List (ℚ × ℚ) → String

/-- `runAnalysis` (`src/ndvi.ts:63-212`) with the mutable `polygon` array
passed as explicit state: `coord`, the extrema, the deltas and the dimensions
are computed from the original array; the first `get_polygon_centroid` call
supplies `centroidLng` and mutates the array; the second call runs on the
mutated array and supplies `centroidLat`.  Returns the result object together
with the final state of the caller's array. -/
def runAnalysis (svc : EEService) (polygon : List Coord) (width : ℚ)
    (dateStart dateEnd : ℤ) :
    Except RunError (RegionQueryResult × List Coord) :=
  let coord := coordRing polygon
  let mxLng := maxLng polygon
  let mnLng := minLng polygon
  let mxLat := maxLat polygon
  let mnLat := minLat polygon
  let dimLng := dimensionLng width
  let dimLat := dimensionLat polygon width
  let r1 := get_polygon_centroid_mut polygon
  let centroidLng := r1.1.lng
  let polygon1 := r1.2
  let r2 := get_polygon_centroid_mut polygon1
  let centroidLat := r2.1.lat
  let polygon2 := r2.2
  match svc.firstImage dateStart dateEnd with
  | none => .error .nullDeref
  | some image =>
    let urlImg := svc.thumbUrl (dimLng, dimLat) coord
    .ok ({ width := dimLng
           height := dimLat
           centroid := ⟨centroidLng, centroidLat⟩
           bounds := [⟨mxLng, mxLat⟩, ⟨mnLng, mnLat⟩]
           time_start := image.time_start
           time_end := image.time_end
           index := image.index
           img_url := urlImg }, polygon2)

/-- Observable events of one `ndviGen` invocation: the credential
verification attempt and the invocation of the orchestrator closure
`runAnalysis`. -/
inductive Event where
  | authenticate
  | orchestrate
deriving DecidableEq, Repr

/-- `ndviGen` (`src/ndvi.ts:53-228`): `ee.data.authenticateViaPrivateKey`
either calls the success callback, which invokes `runAnalysis()` and resolves
with its value, or calls the failure callback, which rejects with
`'Authentication error: ' + e` and never touches `runAnalysis`.  The
credential check outcome is an input (`authOutcome`); the returned trace
records the events in order. -/
def ndviGen (svc : EEService) (authOutcome : Except String Unit)
    (polygon : List Coord) (width : ℚ) (dateStart dateEnd : ℤ) :
    Except String RegionQueryResult × List Event :=
  match authOutcome with
  | .error e => (.error ("Authentication error: " ++ e), [.authenticate])
  | .ok _ =>
    match runAnalysis svc polygon width dateStart dateEnd with
    | .error .nullDeref =>
        (.error "TypeError: Cannot read properties of null",
         [.authenticate, .orchestrate])
    | .ok (ret, _) => (.ok ret, [.authenticate, .orchestrate])

/-- The result object recomputed with every field derived from the caller's
original polygon, the centroid computed once: the reference against which the
mutation of the shared array is judged (claim C10). -/
def runAnalysisPure (svc : EEService) (polygon : List Coord) (width : ℚ)
    (dateStart dateEnd : ℤ) : Except RunError RegionQueryResult :=
  match svc.firstImage dateStart dateEnd with
  | none => .error .nullDeref
  | some image =>
    .ok { width := dimensionLng width
          height := dimensionLat polygon width
          centroid := get_polygon_centroid polygon
          bounds := [⟨maxLng polygon, maxLat polygon⟩, ⟨minLng polygon, minLat polygon⟩]
          time_start := image.time_start
          time_end := image.time_end
          index := image.index
          img_url := svc.thumbUrl (dimensionLng width, dimensionLat polygon width)
            (coordRing polygon) }

/-- Whether an `Except` value is a success. -/
def exceptOk {ε α : Type} : Except ε α → Bool
  | .ok _ => true
  | .error _ => false

/-! ## Lemmas on the closure step -/

theorem coord_eq_iff (a b : Coord) : a = b ↔ a.lng = b.lng ∧ a.lat = b.lat := by
  cases a; cases b; simp

theorem headD_append_self (p : List Coord) :
    (p ++ [p.headD ⟨0, 0⟩]).headD ⟨0, 0⟩ = p.headD ⟨0, 0⟩ := by
  cases p <;> simp

theorem closeRing_headD (p : List Coord) :
    (closeRing p).headD ⟨0, 0⟩ = p.headD ⟨0, 0⟩ := by
  simp only [closeRing]
  split
  · exact headD_append_self p
  · rfl

theorem closeRing_of_ne (p : List Coord)
    (h : (p.headD ⟨0, 0⟩).lng ≠ (p.getLastD ⟨0, 0⟩).lng ∨
      (p.headD ⟨0, 0⟩).lat ≠ (p.getLastD ⟨0, 0⟩).lat) :
    closeRing p = p ++ [p.headD ⟨0, 0⟩] := by
  simp only [closeRing]
  exact if_pos h

theorem closeRing_of_eq (p : List Coord)
    (h : ¬((p.headD ⟨0, 0⟩).lng ≠ (p.getLastD ⟨0, 0⟩).lng ∨
      (p.headD ⟨0, 0⟩).lat ≠ (p.getLastD ⟨0, 0⟩).lat)) :
    closeRing p = p := by
  simp only [closeRing]
  exact if_neg h

theorem closeRing_idem (p : List Coord) : closeRing (closeRing p) = closeRing p := by
  by_cases h : (p.headD ⟨0, 0⟩).lng ≠ (p.getLastD ⟨0, 0⟩).lng ∨
    (p.headD ⟨0, 0⟩).lat ≠ (p.getLastD ⟨0, 0⟩).lat
  · rw [closeRing_of_ne p h]
    apply closeRing_of_eq
    rw [headD_append_self, List.getLastD_concat]
    simp
  · rw [closeRing_of_eq p h]
    exact closeRing_of_eq p h

/-- The value of `get_polygon_centroid` is unchanged by pre-applying the
closure step: the closure is idempotent and preserves the first vertex. -/
theorem centroid_closeRing (p : List Coord) :
    get_polygon_centroid (closeRing p) = get_polygon_centroid p := by
  simp only [get_polygon_centroid, closeRing_headD, closeRing_idem]

/-- Claim C7: for a polygon whose first vertex equals its last vertex
(already closed), the Centroid Calculator returns the same point as on the
corresponding open polygon (the one obtained by dropping the closing vertex):
pre-applying closure does not change the returned centroid. -/
theorem C7_closure_idempotent (q : List Coord) (hlen : 2 ≤ q.length)
    (hclosed : q.headD ⟨0, 0⟩ = q.getLastD ⟨0, 0⟩)
    (hopen : q.dropLast.headD ⟨0, 0⟩ ≠ q.dropLast.getLastD ⟨0, 0⟩) :
    get_polygon_centroid q = get_polygon_centroid q.dropLast := by
  have hne : q ≠ [] := by
    intro h
    rw [h] at hlen
    simp at hlen
  have hq : q.dropLast ++ [q.getLast hne] = q := List.dropLast_append_getLast hne
  have hlastD : q.getLastD ⟨0, 0⟩ = q.getLast hne := by
    rw [List.getLastD_eq_getLast?, List.getLast?_eq_getLast q hne]
    rfl
  have hheadD : q.headD ⟨0, 0⟩ = q.dropLast.headD ⟨0, 0⟩ := by
    match q, hlen with
    | x :: y :: zs, _ => rw [List.dropLast_cons₂]; rfl
  have hcond : (q.dropLast.headD ⟨0, 0⟩).lng ≠ (q.dropLast.getLastD ⟨0, 0⟩).lng ∨
      (q.dropLast.headD ⟨0, 0⟩).lat ≠ (q.dropLast.getLastD ⟨0, 0⟩).lat := by
    by_contra hc
    push_neg at hc
    exact hopen ((coord_eq_iff _ _).mpr hc)
  have hclose : closeRing q.dropLast = q := by
    rw [closeRing_of_ne q.dropLast hcond, ← hheadD, hclosed, hlastD, hq]
  calc get_polygon_centroid q
      = get_polygon_centroid (closeRing q.dropLast) := by rw [hclose]
    _ = get_polygon_centroid q.dropLast := centroid_closeRing q.dropLast

/-- Witness for C7 at the closed unit-square-times-two ring. -/
theorem C7_closure_idempotent_witness :
    get_polygon_centroid [⟨0, 0⟩, ⟨0, 2⟩, ⟨2, 2⟩, ⟨2, 0⟩, ⟨0, 0⟩] =
      get_polygon_centroid
        ([⟨0, 0⟩, ⟨0, 2⟩, ⟨2, 2⟩, ⟨2, 0⟩, ⟨0, 0⟩] : List Coord).dropLast :=
  C7_closure_idempotent _ (by decide) (by decide) (by decide)

/-! ## The loop as a sum over pairs, and the code pairing versus the
spec's index pairing -/

theorem foldl_triple_add (g1 g2 g3 : Coord × Coord → ℚ)
    (pairs : List (Coord × Coord)) (a b c : ℚ) :
    pairs.foldl
      (fun acc pq => (acc.1 + g1 pq, acc.2.1 + g2 pq, acc.2.2 + g3 pq)) (a, b, c) =
      (a + (pairs.map g1).sum, b + (pairs.map g2).sum, c + (pairs.map g3).sum) := by
  induction pairs generalizing a b c with
  | nil => simp
  | cons pq rest ih =>
    rw [List.foldl_cons, ih]
    simp only [List.map_cons, List.sum_cons]
    refine congrArg₂ _ (by ring) (congrArg₂ _ (by ring) (by ring))

theorem centroidLoop_eq_sums (first : Coord) (pairs : List (Coord × Coord)) :
    centroidLoop first pairs =
      ((pairs.map fun pq => crossTerm first pq.1 pq.2).sum,
       (pairs.map fun pq =>
         (pq.1.lng + pq.2.lng - 2 * first.lng) * crossTerm first pq.1 pq.2).sum,
       (pairs.map fun pq =>
         (pq.1.lat + pq.2.lat - 2 * first.lat) * crossTerm first pq.1 pq.2).sum) := by
  have h := foldl_triple_add (fun pq => crossTerm first pq.1 pq.2)
    (fun pq => (pq.1.lng + pq.2.lng - 2 * first.lng) * crossTerm first pq.1 pq.2)
    (fun pq => (pq.1.lat + pq.2.lat - 2 * first.lat) * crossTerm first pq.1 pq.2)
    pairs 0 0 0
  simpa [centroidLoop, crossTerm] using h

theorem getLastD_eq_getD (c : List Coord) (hne : c ≠ []) :
    c.getLastD ⟨0, 0⟩ = c.getD (c.length - 1) ⟨0, 0⟩ := by
  have hn : 0 < c.length := List.length_pos.mpr hne
  rw [List.getLastD_eq_getLast?, List.getLast?_eq_getLast c hne, Option.getD_some,
    List.getLast_eq_getElem, List.getD_eq_getElem c _ (by omega)]

theorem ringPairs_eq_index (c : List Coord) (hne : c ≠ []) :
    ringPairs c = (List.range c.length).map fun i =>
      (c.getD i ⟨0, 0⟩, c.getD ((i + c.length - 1) % c.length) ⟨0, 0⟩) := by
  have hn : 0 < c.length := List.length_pos.mpr hne
  apply List.ext_getElem
  · simp only [ringPairs, List.length_zip, List.length_cons, List.length_dropLast,
      List.length_map, List.length_range]
    omega
  · intro i h1 h2
    have hi : i < c.length := by
      simpa using h2
    simp only [ringPairs, List.getElem_zip, List.getElem_map, List.getElem_range]
    refine Prod.ext ?_ ?_
    · simp only
      rw [List.getD_eq_getElem c _ hi]
    · simp only
      match i, hi with
      | 0, _ =>
        have hmod : (0 + c.length - 1) % c.length = c.length - 1 := by
          have h0 : 0 + c.length - 1 = c.length - 1 := by omega
          rw [h0]
          exact Nat.mod_eq_of_lt (by omega)
        rw [List.getElem_cons_zero, hmod, ← getLastD_eq_getD c hne]
      | j + 1, hj =>
        have hmod : (j + 1 + c.length - 1) % c.length = j := by
          have : j + 1 + c.length - 1 = j + c.length := by omega
          rw [this, Nat.add_mod_right, Nat.mod_eq_of_lt (by omega)]
        rw [List.getElem_cons_succ, List.getElem_dropLast, hmod,
          List.getD_eq_getElem c _ (by omega)]

theorem close_spec_eq_closeRing (pts : List Coord) : close_spec pts = closeRing pts := by
  simp only [close_spec, closeRing]
  by_cases h : pts.headD ⟨0, 0⟩ = pts.getLastD ⟨0, 0⟩
  · rw [if_pos h, if_neg]
    rw [coord_eq_iff] at h
    push_neg
    exact ⟨h.1, h.2⟩
  · rw [if_neg h, if_pos]
    rw [coord_eq_iff] at h
    push_neg at h
    by_cases hl : (pts.headD ⟨0, 0⟩).lng = (pts.getLastD ⟨0, 0⟩).lng
    · exact Or.inr (h hl)
    · exact Or.inl hl

theorem closeRing_ne_nil (pts : List Coord) (hne : pts ≠ []) : closeRing pts ≠ [] := by
  simp only [closeRing]
  split
  · intro h
    exact hne (List.append_eq_nil.mp h).1
  · exact hne

/-- The code's centroid equals the spec's index-pairing shoelace formula. -/
theorem centroid_code_eq_spec (pts : List Coord) (hne : pts ≠ []) :
    get_polygon_centroid pts = centroid_spec pts := by
  have hcne : closeRing pts ≠ [] := closeRing_ne_nil pts hne
  simp only [get_polygon_centroid, centroid_spec, close_spec_eq_closeRing,
    closeRing_headD, ringPairs_eq_index (closeRing pts) hcne,
    centroidLoop_eq_sums, List.map_map, Function.comp_def]

/-- Claim C1: for every polygon of at least 3 vertices with non-zero shoelace
area, `get_polygon_centroid` returns the first-vertex-anchored shoelace
centroid exactly as the spec words it (cross terms over (current, previous)
pairs, `denom = area * 3`, `lngSum/denom + first.lng`,
`latSum/denom + first.lat`); the square `(0,0),(0,2),(2,2),(2,0)` yields
`(1,1)` exactly and the triangle `(0,0),(4,0),(0,3)` yields `(4/3, 1)`. -/
theorem C1_centroid_formula :
    (∀ pts : List Coord, 3 ≤ pts.length → shoelaceArea pts ≠ 0 →
      get_polygon_centroid pts = centroid_spec pts) ∧
    get_polygon_centroid [⟨0, 0⟩, ⟨0, 2⟩, ⟨2, 2⟩, ⟨2, 0⟩] = ⟨1, 1⟩ ∧
    get_polygon_centroid [⟨0, 0⟩, ⟨4, 0⟩, ⟨0, 3⟩] = ⟨4/3, 1⟩ := by
  refine ⟨fun pts h3 _ => centroid_code_eq_spec pts ?_, ?_, ?_⟩
  · intro h
    rw [h] at h3
    simp at h3
  · norm_num [get_polygon_centroid, centroidLoop, ringPairs, closeRing]
  · norm_num [get_polygon_centroid, centroidLoop, ringPairs, closeRing]

/-- Witness for C1: the triangle `(0,0),(4,0),(0,3)` has 3 vertices and
shoelace accumulator 12 ≠ 0, and the code value equals the spec formula
there. -/
theorem C1_centroid_formula_witness :
    get_polygon_centroid [⟨0, 0⟩, ⟨4, 0⟩, ⟨0, 3⟩] =
      centroid_spec [⟨0, 0⟩, ⟨4, 0⟩, ⟨0, 3⟩] :=
  C1_centroid_formula.1 _ (by decide)
    (by norm_num [shoelaceArea, centroidLoop, ringPairs, closeRing])

/-! ## Extrema lemmas for the bounds deriver -/

theorem le_foldl_max (l : List ℚ) (a : ℚ) : a ≤ l.foldl max a := by
  induction l generalizing a with
  | nil => exact le_refl a
  | cons x xs ih => exact le_trans (le_max_left a x) (ih (max a x))

theorem mem_le_foldl_max (l : List ℚ) (a x : ℚ) (hx : x ∈ l) : x ≤ l.foldl max a := by
  induction l generalizing a with
  | nil => cases hx
  | cons y ys ih =>
    rcases List.mem_cons.mp hx with h | h
    · subst h
      exact le_trans (le_max_right a x) (le_foldl_max ys (max a x))
    · exact ih (max a y) h

theorem foldl_max_mem (l : List ℚ) (a : ℚ) : l.foldl max a = a ∨ l.foldl max a ∈ l := by
  induction l generalizing a with
  | nil => exact Or.inl rfl
  | cons x xs ih =>
    rcases ih (max a x) with h | h
    · rcases le_total a x with hax | hxa
      · rw [List.foldl_cons] at *
        right
        rw [h, max_eq_right hax]
        exact List.mem_cons_self x xs
      · left
        rw [List.foldl_cons, h, max_eq_left hxa]
    · exact Or.inr (List.mem_cons_of_mem x h)

theorem foldl_min_le (l : List ℚ) (a : ℚ) : l.foldl min a ≤ a := by
  induction l generalizing a with
  | nil => exact le_refl a
  | cons x xs ih => exact le_trans (ih (min a x)) (min_le_left a x)

theorem foldl_min_le_mem (l : List ℚ) (a x : ℚ) (hx : x ∈ l) : l.foldl min a ≤ x := by
  induction l generalizing a with
  | nil => cases hx
  | cons y ys ih =>
    rcases List.mem_cons.mp hx with h | h
    · subst h
      exact le_trans (foldl_min_le ys (min a x)) (min_le_right a x)
    · exact ih (min a y) h

theorem foldl_min_mem (l : List ℚ) (a : ℚ) : l.foldl min a = a ∨ l.foldl min a ∈ l := by
  induction l generalizing a with
  | nil => exact Or.inl rfl
  | cons x xs ih =>
    rcases ih (min a x) with h | h
    · rcases le_total a x with hax | hxa
      · left
        rw [List.foldl_cons, h, min_eq_left hax]
      · rw [List.foldl_cons] at *
        right
        rw [h, min_eq_right hxa]
        exact List.mem_cons_self x xs
    · exact Or.inr (List.mem_cons_of_mem x h)

theorem headD_lng_mem (p : List Coord) (hne : p ≠ []) :
    (p.headD ⟨0, 0⟩).lng ∈ p.map Coord.lng := by
  match p, hne with
  | x :: xs, _ => exact List.mem_cons_self x.lng (xs.map Coord.lng)

theorem headD_lat_mem (p : List Coord) (hne : p ≠ []) :
    (p.headD ⟨0, 0⟩).lat ∈ p.map Coord.lat := by
  match p, hne with
  | x :: xs, _ => exact List.mem_cons_self x.lat (xs.map Coord.lat)

theorem maxLng_mem (p : List Coord) (hne : p ≠ []) : maxLng p ∈ p.map Coord.lng := by
  rw [maxLng, ← List.foldl_map]
  rcases foldl_max_mem (p.map Coord.lng) (p.headD ⟨0, 0⟩).lng with h | h
  · rw [h]
    exact headD_lng_mem p hne
  · exact h

theorem le_maxLng (p : List Coord) (c : Coord) (hc : c ∈ p) : c.lng ≤ maxLng p := by
  rw [maxLng, ← List.foldl_map]
  exact mem_le_foldl_max _ _ _ (List.mem_map_of_mem Coord.lng hc)

theorem minLng_mem (p : List Coord) (hne : p ≠ []) : minLng p ∈ p.map Coord.lng := by
  rw [minLng, ← List.foldl_map]
  rcases foldl_min_mem (p.map Coord.lng) (p.headD ⟨0, 0⟩).lng with h | h
  · rw [h]
    exact headD_lng_mem p hne
  · exact h

theorem minLng_le (p : List Coord) (c : Coord) (hc : c ∈ p) : minLng p ≤ c.lng := by
  rw [minLng, ← List.foldl_map]
  exact foldl_min_le_mem _ _ _ (List.mem_map_of_mem Coord.lng hc)

theorem maxLat_mem (p : List Coord) (hne : p ≠ []) : maxLat p ∈ p.map Coord.lat := by
  rw [maxLat, ← List.foldl_map]
  rcases foldl_max_mem (p.map Coord.lat) (p.headD ⟨0, 0⟩).lat with h | h
  · rw [h]
    exact headD_lat_mem p hne
  · exact h

theorem le_maxLat (p : List Coord) (c : Coord) (hc : c ∈ p) : c.lat ≤ maxLat p := by
  rw [maxLat, ← List.foldl_map]
  exact mem_le_foldl_max _ _ _ (List.mem_map_of_mem Coord.lat hc)

theorem minLat_mem (p : List Coord) (hne : p ≠ []) : minLat p ∈ p.map Coord.lat := by
  rw [minLat, ← List.foldl_map]
  rcases foldl_min_mem (p.map Coord.lat) (p.headD ⟨0, 0⟩).lat with h | h
  · rw [h]
    exact headD_lat_mem p hne
  · exact h

theorem minLat_le (p : List Coord) (c : Coord) (hc : c ∈ p) : minLat p ≤ c.lat := by
  rw [minLat, ← List.foldl_map]
  exact foldl_min_le_mem _ _ _ (List.mem_map_of_mem Coord.lat hc)

/-- Claim C3: for every polygon and target width with non-zero longitude
extent, the deriver returns width = round(target width) and height =
round(width * deltaLat / deltaLng), where the deltas are differences of
coordinate-wise extrema over all vertices; `deltaLng = 10, deltaLat = 5,
width = 100` yields dimensions `(100, 50)`. -/
theorem C3_dimension_deriver :
    (∀ (p : List Coord) (w : ℚ), p ≠ [] → deltaLng p ≠ 0 →
      outputDims p w = (round w, round (w * deltaLat p / deltaLng p)) ∧
      deltaLng p = maxLng p - minLng p ∧ deltaLat p = maxLat p - minLat p ∧
      maxLng p ∈ p.map Coord.lng ∧ (∀ c ∈ p, c.lng ≤ maxLng p) ∧
      minLng p ∈ p.map Coord.lng ∧ (∀ c ∈ p, minLng p ≤ c.lng) ∧
      maxLat p ∈ p.map Coord.lat ∧ (∀ c ∈ p, c.lat ≤ maxLat p) ∧
      minLat p ∈ p.map Coord.lat ∧ (∀ c ∈ p, minLat p ≤ c.lat)) ∧
    outputDims [⟨0, 0⟩, ⟨10, 0⟩, ⟨10, 5⟩, ⟨0, 5⟩] 100 = (100, 50) := by
  refine ⟨fun p w hne hd =>
    ⟨rfl, rfl, rfl, maxLng_mem p hne, fun c hc => le_maxLng p c hc,
     minLng_mem p hne, fun c hc => minLng_le p c hc,
     maxLat_mem p hne, fun c hc => le_maxLat p c hc,
     minLat_mem p hne, fun c hc => minLat_le p c hc⟩, ?_⟩
  norm_num [outputDims, dimensionLng, dimensionLat, deltaLng, deltaLat,
    maxLng, minLng, maxLat, minLat, max_def, min_def, round_eq]

/-- Witness for C3 at the 10×5 rectangle with width 100. -/
theorem C3_dimension_deriver_witness :
    ([⟨0, 0⟩, ⟨10, 0⟩, ⟨10, 5⟩, ⟨0, 5⟩] : List Coord) ≠ [] ∧
      deltaLng [⟨0, 0⟩, ⟨10, 0⟩, ⟨10, 5⟩, ⟨0, 5⟩] ≠ 0 ∧
      outputDims [⟨0, 0⟩, ⟨10, 0⟩, ⟨10, 5⟩, ⟨0, 5⟩] 100 =
        (round (100 : ℚ),
         round ((100 : ℚ) * deltaLat [⟨0, 0⟩, ⟨10, 0⟩, ⟨10, 5⟩, ⟨0, 5⟩] /
           deltaLng [⟨0, 0⟩, ⟨10, 0⟩, ⟨10, 5⟩, ⟨0, 5⟩])) :=
  ⟨by decide, by norm_num [deltaLng, maxLng, minLng, max_def, min_def],
   (C3_dimension_deriver.1 _ 100 (by decide)
     (by norm_num [deltaLng, maxLng, minLng, max_def, min_def])).1⟩

/-! ## Concrete fixtures for the orchestration claims -/

/-- A triangle whose first and last vertices differ. -/
def triangle : List Coord := [⟨0, 0⟩, ⟨4, 0⟩, ⟨0, 3⟩]

/-- `triangle` after the in-place closure. -/
def closedTriangle : List Coord := [⟨0, 0⟩, ⟨4, 0⟩, ⟨0, 3⟩, ⟨0, 0⟩]

/-- A degenerate polygon: every vertex shares longitude 5. -/
def degenPoly : List Coord := [⟨5, 0⟩, ⟨5, 1⟩, ⟨5, 2⟩]

/-- A fixed image-metadata record returned by the service double. -/
def imgDemo : ImgMeta := ⟨100, 200, "LC08"⟩

/-- A service double whose collection always has a least-cloudy image. -/
def svcSome : EEService := ⟨fun _ _ => some imgDemo, fun _ _ => "url"⟩

/-- A service double whose date-filtered collection is empty. -/
def svcEmpty : EEService := ⟨fun _ _ => none, fun _ _ => "url"⟩

/-- Claim C2 (code-bug evaluation): on a polygon with zero longitude extent
`runAnalysis` raises no error whatsoever — it returns a successful result even
though `deltaLng = 0`, so the height of the JavaScript original is
`Math.round(width * deltaLat / 0) = Infinity`; the code has no
degenerate-geometry error variant at all. -/
theorem C2_no_degenerate_error :
    deltaLng degenPoly = 0 ∧
      exceptOk (runAnalysis svcSome degenPoly 100 0 1) = true := by
  constructor
  · norm_num [deltaLng, maxLng, minLng, degenPoly, max_def, min_def]
  · rfl

/-- Claim C4 (code-bug evaluation): `pts.push(first)` mutates the
caller-supplied array in place — after one centroid call on the open
triangle the caller's array has gained a fourth vertex. -/
theorem C4_caller_array_mutated :
    (get_polygon_centroid_mut triangle).2 = closedTriangle ∧
      (get_polygon_centroid_mut triangle).2 ≠ triangle := by
  constructor
  · decide
  · decide

/-- Claim C6 (code-bug evaluation): when the date-filtered, cloud-sorted
collection is empty the code fails by dereferencing the null image
(`image.getInfo().properties`), not by a distinct typed
no-image-found error — `RunError` has no such variant. -/
theorem C6_empty_collection_null_deref :
    runAnalysis svcEmpty triangle 100 0 1 = .error .nullDeref := rfl

/-- Claim C5: when credential verification fails, `ndviGen` rejects with an
authentication error and the orchestrator is never invoked; when it succeeds,
the orchestrator is invoked exactly once, strictly after authentication (the
trace is `[authenticate, orchestrate]` in that order). -/
theorem C5_authentication_gate :
    (∀ (svc : EEService) (p : List Coord) (w : ℚ) (ds de : ℤ) (e : String),
      (ndviGen svc (.error e) p w ds de).1 =
        .error ("Authentication error: " ++ e) ∧
      (ndviGen svc (.error e) p w ds de).2 = [.authenticate] ∧
      (ndviGen svc (.error e) p w ds de).2.count .orchestrate = 0) ∧
    (∀ (svc : EEService) (p : List Coord) (w : ℚ) (ds de : ℤ),
      (ndviGen svc (.ok ()) p w ds de).2 = [.authenticate, .orchestrate] ∧
      (ndviGen svc (.ok ()) p w ds de).2.count .orchestrate = 1) := by
  constructor
  · intro svc p w ds de e
    exact ⟨rfl, rfl, rfl⟩
  · intro svc p w ds de
    cases h : runAnalysis svc p w ds de with
    | error err =>
      cases err
      constructor
      · simp [ndviGen, h]
      · simp [ndviGen, h, List.count_cons]
    | ok pr =>
      constructor
      · simp [ndviGen, h]
      · simp [ndviGen, h, List.count_cons]

/-- Claim C9: every successful invocation returns `bounds` as the two-element
list [max-corner, min-corner] and passes the three metadata properties of the
selected image through verbatim. -/
theorem C9_bounds_and_metadata :
    ∀ (svc : EEService) (p : List Coord) (w : ℚ) (ds de : ℤ)
      (img : ImgMeta) (ret : RegionQueryResult) (st : List Coord),
      svc.firstImage ds de = some img →
      runAnalysis svc p w ds de = .ok (ret, st) →
      ret.bounds = [⟨maxLng p, maxLat p⟩, ⟨minLng p, minLat p⟩] ∧
      ret.time_start = img.time_start ∧
      ret.time_end = img.time_end ∧
      ret.index = img.index := by
  intro svc p w ds de img ret st himg hrun
  simp only [runAnalysis, himg, Except.ok.injEq, Prod.mk.injEq] at hrun
  obtain ⟨h1, h2⟩ := hrun
  subst h1
  exact ⟨rfl, rfl, rfl, rfl⟩

/-- The result object of `runAnalysis svcSome triangle 100 0 1`. -/
def retDemo : RegionQueryResult :=
  { width := 100
    height := 75
    centroid := ⟨4/3, 1⟩
    bounds := [⟨4, 3⟩, ⟨0, 0⟩]
    time_start := 100
    time_end := 200
    index := "LC08"
    img_url := "url" }

/-- Witness for C9 at the service double and triangle fixture. -/
theorem C9_bounds_and_metadata_witness :
    retDemo.bounds = [⟨maxLng triangle, maxLat triangle⟩,
      ⟨minLng triangle, minLat triangle⟩] ∧
    retDemo.time_start = imgDemo.time_start ∧
    retDemo.time_end = imgDemo.time_end ∧
    retDemo.index = imgDemo.index :=
  C9_bounds_and_metadata svcSome triangle 100 0 1 imgDemo retDemo closedTriangle
    rfl
    (by norm_num [runAnalysis, svcSome, triangle, closedTriangle, retDemo, imgDemo,
      get_polygon_centroid_mut, get_polygon_centroid, centroidLoop, ringPairs,
      closeRing, coordRing, maxLng, minLng, maxLat, minLat, deltaLng, deltaLat,
      dimensionLng, dimensionLat, max_def, min_def, round_eq])

/-- Claim C10: the result record of `runAnalysis` is exactly the record
every field of which is derived from the caller's original, unmutated
polygon — the bounding box, dimensions and coordinate ring are captured
before the first centroid call mutates the shared array, and the second
centroid call (on the mutated array) returns the same point as the first. -/
theorem C10_result_as_if_unmutated :
    ∀ (svc : EEService) (p : List Coord) (w : ℚ) (ds de : ℤ),
      Except.map Prod.fst (runAnalysis svc p w ds de) =
        runAnalysisPure svc p w ds de := by
  intro svc p w ds de
  cases h : svc.firstImage ds de with
  | none => simp [runAnalysis, runAnalysisPure, h, Except.map]
  | some img =>
    simp only [runAnalysis, runAnalysisPure, h, Except.map,
      get_polygon_centroid_mut, centroid_closeRing]
